import Mathlib

/-!
Verification of the salon point-of-sale repository (plush-point).

The development shallowly embeds the client-side aggregation logic of the
reports screen, the visit-recording submit handler, and the incremental
customer resolver.  Money amounts are modelled as rationals, timestamps as
integers (chronological order of the ISO strings used by the code), and the
JavaScript object / Map accumulators as association lists in insertion
order, which matches the iteration order of string-keyed objects and Maps.
-/

namespace PlushPoint

/-! ## Report aggregation (Reports component, fetchReports) -/

/-- Bucket produced by the grouping accumulators: a key together with the
running count and the running sum of amounts. -/
structure GroupEntry where
  key : String
  count : Nat
  total : Rat
deriving DecidableEq, Repr

/-- One step of the accumulator pattern used by every report block: if the
key is absent the bucket is created at the end (object insertion order),
otherwise its count is incremented and the amount added to its sum. -/
def bumpKey (k : String) (amt : Rat) : List GroupEntry → List GroupEntry
  | [] => [⟨k, 1, amt⟩]
  | e :: rest =>
    if e.key = k then ⟨e.key, e.count + 1, e.total + amt⟩ :: rest
    else e :: bumpKey k amt rest

/-- Grouping of rows by a string key with amounts summed per bucket,
exactly the forEach-over-a-record pattern of fetchReports followed by
Object.entries. -/
def groupBy {α : Type} (key : α → String) (amt : α → Rat) (rows : List α) :
    List GroupEntry :=
  rows.foldl (fun acc r => bumpKey (key r) (amt r) acc) []

/-- Sum of the per-bucket sums of a grouped report. -/
def totalSum (l : List GroupEntry) : Rat :=
  (l.map (fun e => e.total)).sum

/-- Label fallback used throughout fetchReports: a missing (or, by the
JavaScript falsiness test, empty) name is replaced by "Unknown". -/
def jsLabel : Option String → String
  | none => "Unknown"
  | some s => if s = "" then "Unknown" else s

/-- Row of the visits table as read by the daily-sales, peak-hours and
payment blocks of fetchReports. -/
structure SalesVisitRow where
  created_at : Int
  final_amount : Rat
  payment_method : Option String
deriving DecidableEq, Repr

/-- Joined visit_services row as read by the employee-performance block. -/
structure EmployeeLineRow where
  employee_name : Option String
  service_price : Rat
deriving DecidableEq, Repr

/-- Joined visit_services row as read by the service-performance block. -/
structure ServiceLineRow where
  service_name : Option String
  service_price : Rat
deriving DecidableEq, Repr

/-- Descending-count order used by the sort callbacks
(b.times_used - a.times_used and b.count - a.count). -/
def countGe (a b : GroupEntry) : Prop := b.count ≤ a.count

instance : DecidableRel countGe := fun a b => Nat.decLe b.count a.count

instance : IsTotal GroupEntry countGe := ⟨fun a b => Nat.le_total b.count a.count⟩

instance : IsTrans GroupEntry countGe := ⟨fun _ _ _ h1 h2 => le_trans h2 h1⟩

/-- Descending order of the per-group sum, the order the specification
ascribes to the spend-based reports. -/
def sumGe (a b : GroupEntry) : Prop := b.total ≤ a.total

instance : DecidableRel sumGe := fun a b => inferInstanceAs (Decidable (b.total ≤ a.total))

/-- Accumulated employee statistics, keyed by the employee display name
with the "Unknown" fallback, summing line-item prices. -/
def employeeStats (rows : List EmployeeLineRow) : List GroupEntry :=
  groupBy (fun r => jsLabel r.employee_name) (fun r => r.service_price) rows

/-- Employee performance report: the entries of the accumulator, emitted
without any sort. -/
def employeePerformance (rows : List EmployeeLineRow) : List GroupEntry :=
  employeeStats rows

/-- Accumulated service statistics, keyed by the service name with the
"Unknown" fallback, summing line-item prices. -/
def serviceData (rows : List ServiceLineRow) : List GroupEntry :=
  groupBy (fun r => jsLabel r.service_name) (fun r => r.service_price) rows

/-- Service performance report: accumulator entries sorted by the callback
(a, b) => b.times_used - a.times_used, i.e. descending count. -/
def servicePerformance (rows : List ServiceLineRow) : List GroupEntry :=
  List.insertionSort countGe (serviceData rows)

/-- Accumulated payment-method statistics, keyed by the payment method
with the "Unknown" fallback, summing visit final amounts. -/
def methodStats (rows : List SalesVisitRow) : List GroupEntry :=
  groupBy (fun r => jsLabel r.payment_method) (fun r => r.final_amount) rows

/-- Payment method breakdown: accumulator entries sorted by the callback
(a, b) => b.count - a.count, i.e. descending count. -/
def paymentMethods (rows : List SalesVisitRow) : List GroupEntry :=
  List.insertionSort countGe (methodStats rows)

theorem totalSum_bumpKey (k : String) (a : Rat) (acc : List GroupEntry) :
    totalSum (bumpKey k a acc) = totalSum acc + a := by
  induction acc with
  | nil => simp [bumpKey, totalSum]
  | cons e rest ih =>
    by_cases h : e.key = k
    · simp [bumpKey, h, totalSum]
      ring
    · simp only [bumpKey, if_neg h, totalSum, List.map_cons, List.sum_cons]
      have := ih
      simp only [totalSum] at this
      rw [this]
      ring

theorem totalSum_groupBy_aux {α : Type} (key : α → String) (amt : α → Rat)
    (rows : List α) (acc : List GroupEntry) :
    totalSum (rows.foldl (fun acc r => bumpKey (key r) (amt r) acc) acc)
      = totalSum acc + (rows.map amt).sum := by
  induction rows generalizing acc with
  | nil => simp
  | cons r rest ih =>
    simp only [List.foldl_cons, List.map_cons, List.sum_cons]
    rw [ih, totalSum_bumpKey]
    ring

theorem totalSum_groupBy {α : Type} (key : α → String) (amt : α → Rat)
    (rows : List α) :
    totalSum (groupBy key amt rows) = (rows.map amt).sum := by
  have := totalSum_groupBy_aux key amt rows []
  simpa [groupBy, totalSum] using this

/-- Claim C7: for every non-empty list of visits in a date window and every
grouping key, the sum over all groups of the per-group revenue sums
produced by the aggregation equals the sum of the amounts of all ungrouped
visits in that window. -/
theorem grouped_sums_eq_ungrouped_sum (key : SalesVisitRow → String)
    (rows : List SalesVisitRow) (_h : rows ≠ []) :
    totalSum (groupBy key (fun r => r.final_amount) rows)
      = (rows.map (fun r => r.final_amount)).sum :=
  totalSum_groupBy key (fun r => r.final_amount) rows

/-- Concrete three-visit window used to witness C7. -/
def c7Rows : List SalesVisitRow :=
  [⟨0, 10, some "cash"⟩, ⟨1, 5, some "card"⟩, ⟨2, 7, some "cash"⟩]

/-- Witness for C7 at a concrete three-visit window grouped by payment
method. -/
theorem grouped_sums_eq_ungrouped_sum_witness :
    totalSum (groupBy (fun r => jsLabel r.payment_method)
        (fun r => r.final_amount) c7Rows)
      = (c7Rows.map (fun r => r.final_amount)).sum :=
  grouped_sums_eq_ungrouped_sum (fun r => jsLabel r.payment_method) c7Rows
    (by simp [c7Rows])

/-- Concrete service lines on which the count order and the revenue order
disagree: service A is used three times for a total of 3, service B once
for a total of 10. -/
def c3Rows : List ServiceLineRow :=
  [⟨some "A", 1⟩, ⟨some "A", 1⟩, ⟨some "A", 1⟩, ⟨some "B", 10⟩]

/-- Counterexample to C3: the service performance report of c3Rows is not
sorted in descending order of the per-group sum, because the code sorts by
descending count (times used) instead. -/
theorem service_sort_not_by_revenue :
    servicePerformance c3Rows = [⟨"A", 3, 3⟩, ⟨"B", 1, 10⟩] ∧
    ¬ List.Sorted sumGe (servicePerformance c3Rows) := by
  have h : servicePerformance c3Rows = [⟨"A", 3, 3⟩, ⟨"B", 1, 10⟩] := by
    norm_num [servicePerformance, serviceData, groupBy, c3Rows, bumpKey,
      jsLabel, List.insertionSort, List.orderedInsert, countGe]
    decide
  refine ⟨h, ?_⟩
  rw [h]
  intro hs
  have h10 := (List.pairwise_cons.mp hs).1 ⟨"B", 1, 10⟩ (by simp)
  simp only [sumGe] at h10
  norm_num at h10

/-- Claim C3 (amended): the service-performance and payment-method reports
are emitted sorted in descending order of the per-group count, as a
permutation of the grouping accumulator entries; the employee report is
the accumulator entries themselves, with no sort applied. -/
theorem spend_reports_sorted_desc_by_count (srows : List ServiceLineRow)
    (prows : List SalesVisitRow) (erows : List EmployeeLineRow) :
    List.Sorted countGe (servicePerformance srows) ∧
    List.Perm (servicePerformance srows) (serviceData srows) ∧
    List.Sorted countGe (paymentMethods prows) ∧
    List.Perm (paymentMethods prows) (methodStats prows) ∧
    employeePerformance erows = employeeStats erows :=
  ⟨List.sorted_insertionSort countGe (serviceData srows),
   List.perm_insertionSort countGe (serviceData srows),
   List.sorted_insertionSort countGe (methodStats prows),
   List.perm_insertionSort countGe (methodStats prows),
   rfl⟩

/-! ## Customer retention (Reports component, retention block) -/

/-- Row of the visits table as read by the retention block. -/
structure RetVisitRow where
  customer_phone : Option String
  created_at : Int
deriving DecidableEq, Repr

/-- Result rendered by the retention report. -/
structure CustomerRetention where
  new_customers : Nat
  returning_customers : Nat
  retention_rate : Rat
deriving DecidableEq, Repr

/-- Retention query: visits with a non-null phone whose created_at lies
inside the report window (gte startDate, lte endDate). -/
def retentionQuery (rows : List RetVisitRow) (s e : Int) : List RetVisitRow :=
  rows.filter (fun r =>
    r.customer_phone.isSome && decide (s ≤ r.created_at) && decide (r.created_at ≤ e))

/-- Map update of the retention block: keep, per phone, the earliest
created_at seen so far (strict comparison, insertion order preserved). -/
def recordFirstVisit (p : String) (t : Int) :
    List (String × Int) → List (String × Int)
  | [] => [(p, t)]
  | (q, u) :: rest =>
    if q = p then (if t < u then (q, t) else (q, u)) :: rest
    else (q, u) :: recordFirstVisit p t rest

/-- Fold of the fetched rows into the per-phone first-visit map. -/
def customerFirstVisit (rows : List RetVisitRow) : List (String × Int) :=
  rows.foldl
    (fun acc r =>
      match r.customer_phone with
      | none => acc
      | some p => recordFirstVisit p r.created_at acc)
    []

/-- Count of (new, returning) customers: a customer is new when the stored
first visit is at or after the window start, returning otherwise. -/
def countNewReturning (s : Int) (entries : List (String × Int)) : Nat × Nat :=
  entries.foldl
    (fun nr pe => if s ≤ pe.2 then (nr.1 + 1, nr.2) else (nr.1, nr.2 + 1))
    (0, 0)

/-- Customer retention computation of fetchReports: window-filtered rows
are folded into a per-phone first-visit map, customers are classified
against the window start, and the rate is returning over total times 100,
or 0 when there are no customers. -/
def customerRetention (rows : List RetVisitRow) (s e : Int) :
    CustomerRetention :=
  let entries := customerFirstVisit (retentionQuery rows s e)
  let nr := countNewReturning s entries
  let total := nr.1 + nr.2
  { new_customers := nr.1
    returning_customers := nr.2
    retention_rate :=
      if 0 < total then ((nr.2 : Rat) / (total : Rat)) * 100 else 0 }

theorem recordFirstVisit_bound {s t : Int} (p : String)
    (acc : List (String × Int)) (hacc : ∀ x ∈ acc, s ≤ x.2) (ht : s ≤ t) :
    ∀ x ∈ recordFirstVisit p t acc, s ≤ x.2 := by
  induction acc with
  | nil =>
    intro x hx
    simp only [recordFirstVisit, List.mem_singleton] at hx
    subst hx
    exact ht
  | cons qu rest ih =>
    obtain ⟨q, u⟩ := qu
    intro x hx
    by_cases h : q = p
    · simp only [recordFirstVisit, if_pos h, List.mem_cons] at hx
      rcases hx with hx | hx
      · by_cases hlt : t < u
        · rw [if_pos hlt] at hx; subst hx; exact ht
        · rw [if_neg hlt] at hx; subst hx
          exact hacc (q, u) (List.mem_cons_self _ _)
      · exact hacc x (List.mem_cons_of_mem _ hx)
    · simp only [recordFirstVisit, if_neg h, List.mem_cons] at hx
      rcases hx with hx | hx
      · subst hx; exact hacc (q, u) (List.mem_cons_self _ _)
      · exact ih (fun y hy => hacc y (List.mem_cons_of_mem _ hy)) x hx

theorem firstVisit_fold_bound {s : Int} (rows : List RetVisitRow)
    (acc : List (String × Int)) (hacc : ∀ x ∈ acc, s ≤ x.2)
    (hrows : ∀ r ∈ rows, s ≤ r.created_at) :
    ∀ x ∈ rows.foldl
        (fun acc r =>
          match r.customer_phone with
          | none => acc
          | some p => recordFirstVisit p r.created_at acc)
        acc, s ≤ x.2 := by
  induction rows generalizing acc with
  | nil => simpa using hacc
  | cons r rest ih =>
    simp only [List.foldl_cons]
    refine ih _ ?_ (fun r2 h2 => hrows r2 (List.mem_cons_of_mem _ h2))
    cases hp : r.customer_phone with
    | none => simpa using hacc
    | some p =>
      simp only
      exact recordFirstVisit_bound p acc hacc
        (hrows r (List.mem_cons_self _ _))

theorem countNewReturning_snd {s : Int} (entries : List (String × Int))
    (init : Nat × Nat) (h : ∀ x ∈ entries, s ≤ x.2) :
    (entries.foldl
        (fun nr pe => if s ≤ pe.2 then (nr.1 + 1, nr.2) else (nr.1, nr.2 + 1))
        init).2 = init.2 := by
  induction entries generalizing init with
  | nil => rfl
  | cons pe rest ih =>
    simp only [List.foldl_cons]
    rw [if_pos (h pe (List.mem_cons_self _ _))]
    exact ih (init.1 + 1, init.2) (fun x hx => h x (List.mem_cons_of_mem _ hx))

/-- Concrete failing input for C1: one customer (phone 555) with a first
visit at time 0, before the window start 5, and a second visit at time 10
inside the window [5, 20]. -/
def c1Rows : List RetVisitRow :=
  [⟨some "555", 0⟩, ⟨some "555", 10⟩]

/-- Claim C1 (code bug evidence): because the retention query restricts
to in-window visits, the per-customer minimum is always at or after the
window start, so the code reports zero returning customers and a zero
retention rate on every input; in particular on c1Rows over the window
[5, 20] it reports 1 new, 0 returning, rate 0, although the spec classifies
the single customer, whose first recorded visit at time 0 predates the
start 5, as returning with rate 100. -/
theorem retention_returning_always_zero (rows : List RetVisitRow)
    (s e : Int) :
    (customerRetention rows s e).returning_customers = 0 ∧
    (customerRetention rows s e).retention_rate = 0 ∧
    customerRetention c1Rows 5 20 = ⟨1, 0, 0⟩ := by
  have hbound : ∀ x ∈ customerFirstVisit (retentionQuery rows s e), s ≤ x.2 := by
    refine firstVisit_fold_bound _ [] (by simp) ?_
    intro r hr
    simp only [retentionQuery, List.mem_filter, Bool.and_eq_true,
      decide_eq_true_eq] at hr
    exact hr.2.1.2
  have hret : (customerRetention rows s e).returning_customers = 0 := by
    simp only [customerRetention, countNewReturning]
    exact countNewReturning_snd _ (0, 0) hbound
  have hsnd : (countNewReturning s (customerFirstVisit (retentionQuery rows s e))).2 = 0 := by
    simpa only [customerRetention] using hret
  have hrate : (customerRetention rows s e).retention_rate = 0 := by
    simp only [customerRetention, hsnd]
    split <;> norm_num
  refine ⟨hret, hrate, ?_⟩
  norm_num [customerRetention, customerFirstVisit, retentionQuery,
    recordFirstVisit, countNewReturning, c1Rows]

/-! ## Visit transaction writer (Visits component) -/

/-- Active service as loaded into the visit form. -/
structure Service where
  id : String
  name : String
  price : Rat
deriving DecidableEq, Repr

/-- Transient form state at submission time: the loaded active services,
the selected service ids in insertion order, the per-service employee
assignment record, the text fields, the parsed discount, and the loading
flag that participates in the submit-button disabled condition. -/
structure FormState where
  services : List Service
  selectedServices : List String
  serviceEmployees : List (String × String)
  customerName : String
  customerPhone : String
  customerNotes : String
  paymentMethod : String
  discount : Rat
  loading : Bool
deriving DecidableEq, Repr

/-- Lookup of serviceEmployees[serviceId]. -/
def assignedEmployee (m : List (String × String)) (sid : String) :
    Option String :=
  (m.find? (fun pr => decide (pr.1 = sid))).map (fun pr => pr.2)

/-- JavaScript falsiness of an optional string: undefined or empty. -/
def jsFalsy : Option String → Bool
  | none => true
  | some s => decide (s = "")

/-- Price used for a selected id: the price of the matching loaded
service, or 0 when the lookup finds nothing (service?.price with fallback
0). -/
def priceOf (services : List Service) (sid : String) : Rat :=
  match services.find? (fun sv => decide (sv.id = sid)) with
  | some sv => sv.price
  | none => 0

/-- Subtotal of the form (calculateTotal): sum over the selected ids of
the looked-up price with fallback 0. -/
def calculateTotal (services : List Service) (selected : List String) : Rat :=
  selected.foldl (fun sum sid => sum + priceOf services sid) 0

/-- Row inserted into the visits table. -/
structure VisitInsert where
  customer_name : String
  customer_phone : String
  customer_notes : String
  total_amount : Rat
  discount : Rat
  final_amount : Rat
  payment_method : String
  payment_status : String
  created_by : String
deriving DecidableEq, Repr

/-- Row inserted into the visit_services table. -/
structure VisitServiceInsert where
  visit_id : String
  service_id : String
  employee_id : String
  service_price : Rat
deriving DecidableEq, Repr

/-- Database operation attempted by the writer.  The delete constructor is
present only so that the absence of any compensating delete from the
emitted operation list is expressible. -/
inductive DbOp where
  | insertVisit (row : VisitInsert)
  | insertVisitServices (rows : List VisitServiceInsert)
  | deleteVisit (row : VisitInsert)
deriving DecidableEq, Repr

/-- Result reported by the submit handler. -/
inductive SubmitResult where
  | missingEmployee
  | notLoggedIn
  | visitInsertFailed
  | servicesInsertFailed
  | success
deriving DecidableEq, Repr

/-- Outcome of one run of the submit handler: the reported result, the
database operations attempted in order, the visit-header row now
persisted, and the line-item rows now persisted. -/
structure SubmitOutcome where
  result : SubmitResult
  ops : List DbOp
  visitRow : Option VisitInsert
  serviceRows : List VisitServiceInsert
deriving DecidableEq, Repr

/-- Line items built from the selection: one row per selected id, with
the employee assignment and the price snapshot with fallback 0. -/
def buildVisitServices (st : FormState) (vid : String) :
    List VisitServiceInsert :=
  st.selectedServices.map (fun sid =>
    { visit_id := vid
      service_id := sid
      employee_id := (assignedEmployee st.serviceEmployees sid).getD ""
      service_price := priceOf st.services sid })

/-- Submit handler (handleSubmit): validate that every selected service
has a truthy employee assignment, require an authenticated user, compute
the totals, insert the visit header with payment_status "completed", and
then insert the line items; each failure stops execution where the code
returns, with no compensating operation.  The auth argument is the result
of getUser, vid the row identifier generated for the header insert, and
the two booleans the success of the two insert calls. -/
def handleSubmit (st : FormState) (auth : Option String) (vid : String)
    (dbVisit dbServices : Bool) : SubmitOutcome :=
  if st.selectedServices.any
      (fun sid => jsFalsy (assignedEmployee st.serviceEmployees sid)) then
    { result := .missingEmployee, ops := [], visitRow := none,
      serviceRows := [] }
  else
    match auth with
    | none =>
      { result := .notLoggedIn, ops := [], visitRow := none,
        serviceRows := [] }
    | some uid =>
      let totalAmount := calculateTotal st.services st.selectedServices
      let finalAmount := totalAmount - st.discount
      let row : VisitInsert :=
        { customer_name := st.customerName
          customer_phone := st.customerPhone
          customer_notes := st.customerNotes
          total_amount := totalAmount
          discount := st.discount
          final_amount := finalAmount
          payment_method := st.paymentMethod
          payment_status := "completed"
          created_by := uid }
      if dbVisit then
        let vss := buildVisitServices st vid
        if dbServices then
          { result := .success
            ops := [.insertVisit row, .insertVisitServices vss]
            visitRow := some row
            serviceRows := vss }
        else
          { result := .servicesInsertFailed
            ops := [.insertVisit row, .insertVisitServices vss]
            visitRow := some row
            serviceRows := [] }
      else
        { result := .visitInsertFailed
          ops := [.insertVisit row]
          visitRow := none
          serviceRows := [] }

/-- Disabled condition of the submit button: loading, or an empty service
selection. -/
def submitDisabled (st : FormState) : Bool :=
  st.loading || decide (st.selectedServices.length = 0)

/-- Form submission as reachable through the user interface: the handler
runs only when the submit button is enabled. -/
def recordVisitAttempt (st : FormState) (auth : Option String)
    (vid : String) (dbVisit dbServices : Bool) : Option SubmitOutcome :=
  if submitDisabled st then none
  else some (handleSubmit st auth vid dbVisit dbServices)

/-- Default payment status of the visits table, from the migration
(payment_status TEXT NOT NULL DEFAULT "pending"). -/
def visitsPaymentStatusDefault : String := "pending"

/-- Test for a compensating delete among the attempted operations. -/
def isDeleteOp : DbOp → Bool
  | .deleteVisit _ => true
  | _ => false

theorem calculateTotal_foldl (sv : List Service) (l : List String) (a : Rat) :
    l.foldl (fun sum sid => sum + priceOf sv sid) a
      = a + (l.map (priceOf sv)).sum := by
  induction l generalizing a with
  | nil => simp
  | cons x xs ih =>
    simp only [List.foldl_cons, List.map_cons, List.sum_cons, ih]
    ring

theorem calculateTotal_eq_sum (sv : List Service) (l : List String) :
    calculateTotal sv l = (l.map (priceOf sv)).sum := by
  simpa [calculateTotal] using calculateTotal_foldl sv l 0

theorem sum_prices_filter_ne (sv : List Service) (sid : String)
    (h0 : priceOf sv sid = 0) (l : List String) :
    (l.map (priceOf sv)).sum
      = ((l.filter (fun x => x != sid)).map (priceOf sv)).sum := by
  induction l with
  | nil => rfl
  | cons x xs ih =>
    by_cases hx : x = sid
    · subst hx
      simp [List.filter_cons, h0, ih]
    · have hbne : (x != sid) = true := bne_iff_ne.mpr hx
      simp [List.filter_cons, hbne, ih]

/-! ### Claim C2: empty selection -/

/-- Form state with an empty service selection. -/
def stEmpty : FormState :=
  { services := [], selectedServices := [], serviceEmployees := []
    customerName := "John Doe", customerPhone := "", customerNotes := ""
    paymentMethod := "cash", discount := 0, loading := false }

/-- Counterexample to C2: the submit handler contains no empty-selection
check and no "no services selected" error; invoked on a state with zero
selected services it reports success and persists a visit-header row. -/
theorem submit_empty_selection_not_rejected :
    (handleSubmit stEmpty (some "u1") "v1" true true).result
        = SubmitResult.success ∧
    (handleSubmit stEmpty (some "u1") "v1" true true).visitRow.isSome
        = true :=
  ⟨rfl, rfl⟩

/-- Claim C2 (amended): a submission with zero selected services is made
unreachable by the user interface, because the submit button is disabled
whenever the selection is empty, so no handler run and no write occurs;
the handler itself emits no "no services selected" error. -/
theorem empty_selection_blocked (st : FormState) (auth : Option String)
    (vid : String) (dbVisit dbServices : Bool)
    (h : st.selectedServices = []) :
    submitDisabled st = true ∧
    recordVisitAttempt st auth vid dbVisit dbServices = none := by
  have hd : submitDisabled st = true := by simp [submitDisabled, h]
  exact ⟨hd, by simp [recordVisitAttempt, hd]⟩

/-- Witness for the amended C2 on the concrete empty-selection state. -/
theorem empty_selection_blocked_witness :
    submitDisabled stEmpty = true ∧
    recordVisitAttempt stEmpty (some "u1") "v1" true true = none :=
  empty_selection_blocked stEmpty (some "u1") "v1" true true rfl

/-! ### Claim C5: missing employee assignment -/

/-- Claim C5: a submission in which some selected service has no truthy
employee assignment is rejected with the missing-employee error before any
database operation: nothing is attempted, and nothing is persisted in
either table. -/
theorem missing_employee_rejected_no_write (st : FormState)
    (auth : Option String) (vid : String) (dv ds : Bool) (sid : String)
    (hmem : sid ∈ st.selectedServices)
    (hfal : jsFalsy (assignedEmployee st.serviceEmployees sid) = true) :
    handleSubmit st auth vid dv ds
      = { result := .missingEmployee, ops := [], visitRow := none,
          serviceRows := [] } := by
  have hany : st.selectedServices.any
      (fun s2 => jsFalsy (assignedEmployee st.serviceEmployees s2)) = true :=
    List.any_eq_true.mpr ⟨sid, hmem, hfal⟩
  simp [handleSubmit, hany]

/-- Form state with one selected service and no employee assignment. -/
def stNoEmp : FormState :=
  { services := [⟨"s1", "Haircut", 20⟩], selectedServices := ["s1"]
    serviceEmployees := [], customerName := "John Doe"
    customerPhone := "", customerNotes := "", paymentMethod := "cash"
    discount := 0, loading := false }

/-- Witness for C5 on the concrete unassigned-service state. -/
theorem missing_employee_rejected_no_write_witness :
    handleSubmit stNoEmp (some "u1") "v1" true true
      = { result := .missingEmployee, ops := [], visitRow := none,
          serviceRows := [] } :=
  missing_employee_rejected_no_write stNoEmp (some "u1") "v1" true true
    "s1" (by simp [stNoEmp]) rfl

/-! ### Claim C4: totals and the unclamped final amount -/

/-- Form state with services priced 20.00 and 15.50 both selected and a
discount of 5.00. -/
def stDisc5 : FormState :=
  { services := [⟨"A", "Service A", 20⟩, ⟨"B", "Service B", (31 : Rat)/2⟩]
    selectedServices := ["A", "B"]
    serviceEmployees := [("A", "e1"), ("B", "e1")]
    customerName := "John Doe", customerPhone := "", customerNotes := ""
    paymentMethod := "cash", discount := 5, loading := false }

/-- Form state identical to stDisc5 but with a discount of 40.00. -/
def stDisc40 : FormState :=
  { services := [⟨"A", "Service A", 20⟩, ⟨"B", "Service B", (31 : Rat)/2⟩]
    selectedServices := ["A", "B"]
    serviceEmployees := [("A", "e1"), ("B", "e1")]
    customerName := "John Doe", customerPhone := "", customerNotes := ""
    paymentMethod := "cash", discount := 40, loading := false }

/-- Visit-header row the handler builds from stDisc5. -/
def rowDisc5 : VisitInsert :=
  { customer_name := "John Doe", customer_phone := "", customer_notes := ""
    total_amount := (71 : Rat)/2, discount := 5
    final_amount := (61 : Rat)/2, payment_method := "cash"
    payment_status := "completed", created_by := "u1" }

/-- Claim C4: every persisted visit header carries total_amount equal to
the sum of the looked-up prices of the selected services and final_amount
equal to that subtotal minus the discount, with no clamping at zero; on
prices 20.00 and 15.50 with discount 5.00 the stored final amount is
30.50, and with discount 40.00 it is -4.50. -/
theorem final_amount_unclamped :
    (∀ (st : FormState) (auth : Option String) (vid : String)
        (dv ds : Bool) (v : VisitInsert),
      (handleSubmit st auth vid dv ds).visitRow = some v →
      v.total_amount = calculateTotal st.services st.selectedServices ∧
      v.final_amount
        = calculateTotal st.services st.selectedServices - st.discount) ∧
    (handleSubmit stDisc5 (some "u1") "v1" true true).visitRow.map
        (fun v => v.final_amount) = some ((61 : Rat)/2) ∧
    (handleSubmit stDisc40 (some "u1") "v1" true true).visitRow.map
        (fun v => v.final_amount) = some (-((9 : Rat)/2)) := by
  refine ⟨?_, ?_, ?_⟩
  · intro st auth vid dv ds v hv
    cases hb : st.selectedServices.any
        (fun sid => jsFalsy (assignedEmployee st.serviceEmployees sid)) with
    | true => simp [handleSubmit, hb] at hv
    | false =>
      cases auth with
      | none => simp [handleSubmit, hb] at hv
      | some uid =>
        cases dv with
        | false => simp [handleSubmit, hb] at hv
        | true =>
          cases ds with
          | true =>
            simp only [handleSubmit, hb, Bool.false_eq_true, if_false,
              if_true, Option.some.injEq] at hv
            subst hv
            exact ⟨rfl, rfl⟩
          | false =>
            simp only [handleSubmit, hb, Bool.false_eq_true, if_false,
              if_true, Option.some.injEq] at hv
            subst hv
            exact ⟨rfl, rfl⟩
  · simp [handleSubmit, stDisc5, assignedEmployee, jsFalsy,
      calculateTotal, priceOf, List.find?]
    norm_num
  · simp [handleSubmit, stDisc40, assignedEmployee, jsFalsy,
      calculateTotal, priceOf, List.find?]
    norm_num

/-- Witness for C4: the concrete header row built from stDisc5 satisfies
the general total and final-amount equations. -/
theorem final_amount_unclamped_witness :
    rowDisc5.total_amount
        = calculateTotal stDisc5.services stDisc5.selectedServices ∧
    rowDisc5.final_amount
        = calculateTotal stDisc5.services stDisc5.selectedServices
            - stDisc5.discount :=
  final_amount_unclamped.1 stDisc5 (some "u1") "v1" true true rowDisc5
    (by
      simp [handleSubmit, stDisc5, rowDisc5, assignedEmployee,
        jsFalsy, calculateTotal, priceOf, List.find?]
      norm_num)

/-! ### Claim C8: partial write leaves an orphaned header -/

/-- Claim C8: when validation passes, the header insert succeeds and the
line-item insert fails, the handler reports the services error and stops;
the header row stays persisted with zero persisted line items, and no
compensating delete appears among the attempted operations. -/
theorem second_insert_failure_leaves_orphan (st : FormState) (uid vid : String)
    (hval : st.selectedServices.any
      (fun sid => jsFalsy (assignedEmployee st.serviceEmployees sid)) = false) :
    (handleSubmit st (some uid) vid true false).result
        = SubmitResult.servicesInsertFailed ∧
    (handleSubmit st (some uid) vid true false).visitRow.isSome = true ∧
    (handleSubmit st (some uid) vid true false).serviceRows = [] ∧
    (handleSubmit st (some uid) vid true false).ops.any isDeleteOp = false := by
  simp [handleSubmit, hval, isDeleteOp]

/-- Form state with one selected, assigned service, used by the C8
witness. -/
def stOrphan : FormState :=
  { services := [⟨"s1", "Haircut", 20⟩], selectedServices := ["s1"]
    serviceEmployees := [("s1", "e1")], customerName := "John Doe"
    customerPhone := "", customerNotes := "", paymentMethod := "cash"
    discount := 0, loading := false }

/-- Witness for C8 on the concrete assigned-service state. -/
theorem second_insert_failure_leaves_orphan_witness :
    (handleSubmit stOrphan (some "u1") "v1" true false).result
        = SubmitResult.servicesInsertFailed ∧
    (handleSubmit stOrphan (some "u1") "v1" true false).visitRow.isSome = true ∧
    (handleSubmit stOrphan (some "u1") "v1" true false).serviceRows = [] ∧
    (handleSubmit stOrphan (some "u1") "v1" true false).ops.any isDeleteOp
        = false :=
  second_insert_failure_leaves_orphan stOrphan "u1" "v1" (by
    simp [stOrphan, assignedEmployee, jsFalsy, List.find?])

/-! ### Claim C9: payment status always "completed" -/

/-- Claim C9: every visit-header row the handler attempts to insert
carries payment_status "completed", never the table default "pending" or
any other value, for every input. -/
theorem visit_insert_always_completed (st : FormState)
    (auth : Option String) (vid : String) (dv ds : Bool) (v : VisitInsert)
    (hmem : DbOp.insertVisit v ∈ (handleSubmit st auth vid dv ds).ops) :
    v.payment_status = "completed" ∧
    v.payment_status ≠ visitsPaymentStatusDefault := by
  cases hb : st.selectedServices.any
      (fun sid => jsFalsy (assignedEmployee st.serviceEmployees sid)) with
  | true => simp [handleSubmit, hb] at hmem
  | false =>
    cases auth with
    | none => simp [handleSubmit, hb] at hmem
    | some uid =>
      cases dv with
      | false =>
        simp only [handleSubmit, hb, Bool.false_eq_true, if_false, if_true,
          List.mem_singleton, DbOp.insertVisit.injEq] at hmem
        subst hmem
        exact ⟨rfl, by simp [visitsPaymentStatusDefault]⟩
      | true =>
        cases ds with
        | true =>
          simp only [handleSubmit, hb, Bool.false_eq_true, if_false,
            if_true, List.mem_cons, List.mem_singleton,
            DbOp.insertVisit.injEq, reduceCtorEq, or_false] at hmem
          rcases hmem with hmem | hmem | hmem
          · subst hmem
            exact ⟨rfl, by simp [visitsPaymentStatusDefault]⟩
          · exact absurd hmem not_false
          · exact absurd hmem (List.not_mem_nil _)
        | false =>
          simp only [handleSubmit, hb, Bool.false_eq_true, if_false,
            if_true, List.mem_cons, List.mem_singleton,
            DbOp.insertVisit.injEq, reduceCtorEq, or_false] at hmem
          rcases hmem with hmem | hmem | hmem
          · subst hmem
            exact ⟨rfl, by simp [visitsPaymentStatusDefault]⟩
          · exact absurd hmem not_false
          · exact absurd hmem (List.not_mem_nil _)

/-- Form state with one selected, assigned service, reserved for the C9
witness. -/
def stCompleted : FormState :=
  { services := [⟨"s1", "Haircut", 20⟩], selectedServices := ["s1"]
    serviceEmployees := [("s1", "e1")], customerName := "Jane Doe"
    customerPhone := "", customerNotes := "", paymentMethod := "card"
    discount := 0, loading := false }

/-- Visit-header row the handler builds from stCompleted. -/
def rowCompleted : VisitInsert :=
  { customer_name := "Jane Doe", customer_phone := "", customer_notes := ""
    total_amount := 20, discount := 0, final_amount := 20
    payment_method := "card", payment_status := "completed"
    created_by := "u1" }

/-- Witness for C9 on the concrete row inserted from stCompleted. -/
theorem visit_insert_always_completed_witness :
    rowCompleted.payment_status = "completed" ∧
    rowCompleted.payment_status ≠ visitsPaymentStatusDefault :=
  visit_insert_always_completed stCompleted (some "u1") "v1" true true
    rowCompleted (by
      simp [handleSubmit, stCompleted, rowCompleted, assignedEmployee,
        jsFalsy, calculateTotal, priceOf, List.find?])

/-! ### Claim C10: selected service missing from the loaded list -/

/-- Claim C10: a selected identifier absent from the loaded services list
raises no error: its price is looked up as 0, removing it from the
selection leaves the subtotal unchanged, its line item is built with a
price snapshot of 0, and a fully assigned, authenticated submission still
succeeds. -/
theorem missing_service_priced_zero (st : FormState) (sid vid : String)
    (hmem : sid ∈ st.selectedServices)
    (hfind : st.services.find? (fun sv => decide (sv.id = sid)) = none) :
    priceOf st.services sid = 0 ∧
    calculateTotal st.services st.selectedServices
      = calculateTotal st.services
          (st.selectedServices.filter (fun x => x != sid)) ∧
    (∀ row ∈ buildVisitServices st vid,
      row.service_id = sid → row.service_price = 0) ∧
    (∀ uid : String,
      st.selectedServices.any
        (fun s2 => jsFalsy (assignedEmployee st.serviceEmployees s2)) = false →
      (handleSubmit st (some uid) vid true true).result
        = SubmitResult.success) := by
  have h0 : priceOf st.services sid = 0 := by
    simp [priceOf, hfind]
  refine ⟨h0, ?_, ?_, ?_⟩
  · rw [calculateTotal_eq_sum, calculateTotal_eq_sum]
    exact sum_prices_filter_ne st.services sid h0 st.selectedServices
  · intro row hrow hid
    simp only [buildVisitServices, List.mem_map] at hrow
    obtain ⟨s2, _, hs2⟩ := hrow
    subst hs2
    simp only at hid
    subst hid
    exact h0
  · intro uid hval
    simp [handleSubmit, hval]

/-- Form state selecting an identifier that no loaded service carries. -/
def stGhost : FormState :=
  { services := [], selectedServices := ["ghost"]
    serviceEmployees := [("ghost", "e1")], customerName := "Jane Doe"
    customerPhone := "", customerNotes := "", paymentMethod := "cash"
    discount := 0, loading := false }

/-- Witness for C10 on the concrete state selecting an unknown id. -/
theorem missing_service_priced_zero_witness :
    priceOf stGhost.services "ghost" = 0 ∧
    (handleSubmit stGhost (some "u1") "v1" true true).result
        = SubmitResult.success :=
  ⟨(missing_service_priced_zero stGhost "ghost" "v1" (by simp [stGhost])
      rfl).1,
   (missing_service_priced_zero stGhost "ghost" "v1" (by simp [stGhost])
      rfl).2.2.2 "u1" (by
        simp [stGhost, assignedEmployee, jsFalsy, List.find?])⟩

/-! ## Customer resolver (Visits component, handlePhoneChange) -/

/-- Historical visit row used by the resolver query: the selected name
and phone columns together with the created_at column the row store
orders by. -/
structure HistoryRow where
  customer_name : String
  customer_phone : String
  created_at : Int
deriving DecidableEq, Repr

/-- Suggestion pair as held in matchingCustomers. -/
structure CustomerMatch where
  customer_name : String
  customer_phone : String
deriving DecidableEq, Repr

/-- Projection of a fetched row to the selected columns. -/
def toMatch (r : HistoryRow) : CustomerMatch :=
  ⟨r.customer_name, r.customer_phone⟩

/-- Case-insensitive substring test modelling the ilike filter with the
input wrapped in percent wildcards. -/
def containsCI (hay needle : String) : Bool :=
  decide (needle.toLower.data <:+: hay.toLower.data)

/-- Most-recent-first order of the query (order by created_at
descending). -/
def recencyGe (a b : HistoryRow) : Prop := b.created_at ≤ a.created_at

instance : DecidableRel recencyGe :=
  fun a b => inferInstanceAs (Decidable (b.created_at ≤ a.created_at))

instance : IsTotal HistoryRow recencyGe :=
  ⟨fun a b => Int.le_total b.created_at a.created_at⟩

instance : IsTrans HistoryRow recencyGe :=
  ⟨fun _ _ _ h1 h2 => le_trans h2 h1⟩

/-- Resolver query: rows whose phone contains the input
case-insensitively, ordered by created_at descending. -/
def phoneQuery (history : List HistoryRow) (input : String) :
    List HistoryRow :=
  List.insertionSort recencyGe
    (history.filter (fun r => containsCI r.customer_phone input))

/-- Reduce step of handlePhoneChange: push the current element unless an
accumulator element already carries the same key (strict equality on the
phone in the code). -/
def dedupeBy {α : Type} (key : α → String) (acc : List α) :
    List α → List α
  | [] => acc
  | c :: rest =>
    if acc.any (fun x => decide (key x = key c)) then dedupeBy key acc rest
    else dedupeBy key (acc ++ [c]) rest

/-- Suggestion list of handlePhoneChange: empty below input length 3,
otherwise the deduplicated query result (the empty-data branch also
yields the empty list). -/
def matchingCustomers (history : List HistoryRow) (input : String) :
    List CustomerMatch :=
  if 3 ≤ input.length then
    let data := (phoneQuery history input).map toMatch
    if 0 < data.length then
      dedupeBy (fun cm => cm.customer_phone) [] data
    else []
  else []

theorem mem_dedupeBy {α : Type} (key : α → String) (l acc : List α)
    (x : α) (hx : x ∈ dedupeBy key acc l) : x ∈ acc ∨ x ∈ l := by
  induction l generalizing acc with
  | nil => exact Or.inl hx
  | cons c rest ih =>
    simp only [dedupeBy] at hx
    by_cases h : acc.any (fun y => decide (key y = key c)) = true
    · rw [if_pos h] at hx
      rcases ih acc hx with h2 | h2
      · exact Or.inl h2
      · exact Or.inr (List.mem_cons_of_mem _ h2)
    · rw [if_neg h] at hx
      rcases ih (acc ++ [c]) hx with h2 | h2
      · rcases List.mem_append.mp h2 with h3 | h3
        · exact Or.inl h3
        · exact Or.inr (List.mem_cons.mpr (Or.inl (List.mem_singleton.mp h3)))
      · exact Or.inr (List.mem_cons_of_mem _ h2)

theorem acc_subset_dedupeBy {α : Type} (key : α → String) (l acc : List α)
    (x : α) (hx : x ∈ acc) : x ∈ dedupeBy key acc l := by
  induction l generalizing acc with
  | nil => exact hx
  | cons c rest ih =>
    simp only [dedupeBy]
    by_cases h : acc.any (fun y => decide (key y = key c)) = true
    · rw [if_pos h]
      exact ih acc hx
    · rw [if_neg h]
      exact ih (acc ++ [c]) (List.mem_append.mpr (Or.inl hx))

theorem keys_nodup_dedupeBy {α : Type} (key : α → String) (l acc : List α)
    (hacc : (acc.map key).Nodup) : ((dedupeBy key acc l).map key).Nodup := by
  induction l generalizing acc with
  | nil => exact hacc
  | cons c rest ih =>
    simp only [dedupeBy]
    by_cases h : acc.any (fun y => decide (key y = key c)) = true
    · rw [if_pos h]
      exact ih acc hacc
    · rw [if_neg h]
      refine ih (acc ++ [c]) ?_
      rw [List.map_append, List.map_singleton]
      rw [List.nodup_append]
      refine ⟨hacc, List.nodup_singleton _, ?_⟩
      intro k hk hk2
      rcases List.mem_map.mp hk with ⟨y, hy, hyk⟩
      rw [List.mem_singleton] at hk2
      subst hk2
      exact h (List.any_eq_true.mpr ⟨y, hy, by simp [hyk]⟩)

theorem keys_complete_dedupeBy {α : Type} (key : α → String)
    (l acc : List α) :
    ∀ r ∈ l, key r ∈ (dedupeBy key acc l).map key := by
  induction l generalizing acc with
  | nil => intro r hr; exact absurd hr (List.not_mem_nil _)
  | cons c rest ih =>
    intro r hr
    simp only [dedupeBy]
    by_cases h : acc.any (fun y => decide (key y = key c)) = true
    · rw [if_pos h]
      rcases List.mem_cons.mp hr with hr2 | hr2
      · subst hr2
        rcases List.any_eq_true.mp h with ⟨y, hy, hyk⟩
        rw [decide_eq_true_eq] at hyk
        rw [← hyk]
        exact List.mem_map_of_mem key (acc_subset_dedupeBy key rest acc y hy)
      · exact ih acc r hr2
    · rw [if_neg h]
      rcases List.mem_cons.mp hr with hr2 | hr2
      · subst hr2
        exact List.mem_map_of_mem key
          (acc_subset_dedupeBy key rest (acc ++ [r])
            r (List.mem_append.mpr (Or.inr (List.mem_singleton.mpr rfl))))
      · exact ih (acc ++ [c]) r hr2

theorem dedupeBy_first {α : Type} (key : α → String) (t : α → Int)
    (l acc : List α)
    (hsort : List.Pairwise (fun a b => t b ≤ t a) l) :
    ∀ x ∈ dedupeBy key acc l,
      x ∈ acc ∨
      (x ∈ l ∧ key x ∉ acc.map key ∧
        ∀ r ∈ l, key r = key x → t r ≤ t x) := by
  induction l generalizing acc with
  | nil => intro x hx; exact Or.inl hx
  | cons c rest ih =>
    intro x hx
    have hpair := List.pairwise_cons.mp hsort
    simp only [dedupeBy] at hx
    by_cases h : acc.any (fun y => decide (key y = key c)) = true
    · rw [if_pos h] at hx
      rcases ih acc hpair.2 x hx with h2 | ⟨hmem, hnot, hdom⟩
      · exact Or.inl h2
      · refine Or.inr ⟨List.mem_cons_of_mem _ hmem, hnot, ?_⟩
        intro r hr hkr
        rcases List.mem_cons.mp hr with hr2 | hr2
        · subst hr2
          exfalso
          rcases List.any_eq_true.mp h with ⟨y, hy, hyk⟩
          rw [decide_eq_true_eq] at hyk
          exact hnot (by
            rw [← hkr, ← hyk]
            exact List.mem_map_of_mem key hy)
        · exact hdom r hr2 hkr
    · rw [if_neg h] at hx
      rcases ih (acc ++ [c]) hpair.2 x hx with h2 | ⟨hmem, hnot, hdom⟩
      · rcases List.mem_append.mp h2 with h3 | h3
        · exact Or.inl h3
        · rw [List.mem_singleton] at h3
          subst h3
          refine Or.inr ⟨List.mem_cons_self _ _, ?_, ?_⟩
          · intro hk
            rcases List.mem_map.mp hk with ⟨y, hy, hyk⟩
            exact h (List.any_eq_true.mpr ⟨y, hy, by simp [hyk]⟩)
          · intro r hr hkr
            rcases List.mem_cons.mp hr with hr2 | hr2
            · subst hr2; exact le_refl _
            · exact hpair.1 r hr2
      · have hnot2 : key x ∉ acc.map key := by
          intro hk
          exact hnot (by
            rw [List.map_append]
            exact List.mem_append.mpr (Or.inl hk))
        refine Or.inr ⟨List.mem_cons_of_mem _ hmem, hnot2, ?_⟩
        intro r hr hkr
        rcases List.mem_cons.mp hr with hr2 | hr2
        · subst hr2
          exfalso
          refine hnot ?_
          rw [List.map_append, List.map_singleton]
          exact List.mem_append.mpr (Or.inr (by
            rw [List.mem_singleton]
            exact hkr.symm))
        · exact hdom r hr2 hkr

theorem dedupeBy_map_toMatch (l acc : List HistoryRow) :
    dedupeBy (fun cm => cm.customer_phone) (acc.map toMatch)
        (l.map toMatch)
      = (dedupeBy (fun r => r.customer_phone) acc l).map toMatch := by
  induction l generalizing acc with
  | nil => rfl
  | cons c rest ih =>
    simp only [List.map_cons, dedupeBy]
    have hcond :
        (acc.map toMatch).any
            (fun x => decide (x.customer_phone = (toMatch c).customer_phone))
          = acc.any (fun y => decide (y.customer_phone = c.customer_phone)) := by
      induction acc with
      | nil => rfl
      | cons a as iha =>
        simp only [List.map_cons, List.any_cons, iha]
        rfl
    rw [hcond]
    by_cases h : acc.any (fun y => decide (y.customer_phone = c.customer_phone)) = true
    · rw [if_pos h, if_pos h]
      exact ih acc
    · rw [if_neg h, if_neg h]
      have : acc.map toMatch ++ [toMatch c] = (acc ++ [c]).map toMatch := by
        rw [List.map_append, List.map_singleton]
      rw [this]
      exact ih (acc ++ [c])

theorem mem_phoneQuery (history : List HistoryRow) (input : String)
    (r : HistoryRow) :
    r ∈ phoneQuery history input ↔
      r ∈ history ∧ containsCI r.customer_phone input = true := by
  unfold phoneQuery
  rw [List.mem_insertionSort]
  exact List.mem_filter

theorem pairwise_phoneQuery (history : List HistoryRow) (input : String) :
    List.Pairwise (fun a b => b.created_at ≤ a.created_at)
      (phoneQuery history input) :=
  List.sorted_insertionSort recencyGe
    (history.filter (fun r => containsCI r.customer_phone input))

/-- Claim C6: below input length 3 the resolver suggests nothing; at
length 3 or more every suggestion phone occurs once, every suggestion is
the projection of a matching historical row whose created_at is maximal
among the matching rows with that phone (the most recently recorded name),
and every matching row contributes a suggestion with its phone, so two
historical visits sharing one phone yield exactly one suggestion. -/
theorem customer_resolver_ok (history : List HistoryRow) (input : String) :
    (input.length < 3 → matchingCustomers history input = []) ∧
    ((matchingCustomers history input).map
        (fun cm => cm.customer_phone)).Nodup ∧
    (∀ cm ∈ matchingCustomers history input, ∃ r ∈ history,
      containsCI r.customer_phone input = true ∧ toMatch r = cm ∧
      ∀ r2 ∈ history, containsCI r2.customer_phone input = true →
        r2.customer_phone = r.customer_phone →
        r2.created_at ≤ r.created_at) ∧
    (∀ r ∈ history, containsCI r.customer_phone input = true →
      3 ≤ input.length →
      ∃ cm ∈ matchingCustomers history input,
        cm.customer_phone = r.customer_phone) := by
  by_cases hlen : 3 ≤ input.length
  · by_cases hdat : 0 < ((phoneQuery history input).map toMatch).length
    · have hout : matchingCustomers history input
          = (dedupeBy (fun r => r.customer_phone) []
              (phoneQuery history input)).map toMatch := by
        have h1 : matchingCustomers history input
            = dedupeBy (fun cm => cm.customer_phone) []
                ((phoneQuery history input).map toMatch) := by
          simp only [matchingCustomers, if_pos hlen, if_pos hdat]
        rw [h1]
        have h2 : ([] : List CustomerMatch)
            = ([] : List HistoryRow).map toMatch := rfl
        rw [h2, dedupeBy_map_toMatch]
      refine ⟨?_, ?_, ?_, ?_⟩
      · intro hsmall
        exact absurd hlen (not_le.mpr hsmall)
      · rw [hout, List.map_map]
        exact keys_nodup_dedupeBy (fun r => r.customer_phone)
          (phoneQuery history input) [] List.nodup_nil
      · intro cm hcm
        rw [hout] at hcm
        rcases List.mem_map.mp hcm with ⟨r0, hr0, rfl⟩
        rcases dedupeBy_first (fun r => r.customer_phone)
            (fun r => r.created_at) (phoneQuery history input) []
            (pairwise_phoneQuery history input) r0 hr0 with
          h2 | ⟨hmem, _, hdom⟩
        · exact absurd h2 (List.not_mem_nil _)
        · have hm := (mem_phoneQuery history input r0).mp hmem
          refine ⟨r0, hm.1, hm.2, rfl, ?_⟩
          intro r2 h2 hc2 hphone
          exact hdom r2 ((mem_phoneQuery history input r2).mpr ⟨h2, hc2⟩)
            hphone
      · intro r hr hc _
        have hrS : r ∈ phoneQuery history input :=
          (mem_phoneQuery history input r).mpr ⟨hr, hc⟩
        have hk := keys_complete_dedupeBy (fun r => r.customer_phone)
          (phoneQuery history input) [] r hrS
        rcases List.mem_map.mp hk with ⟨r0, hr0, hkey⟩
        refine ⟨toMatch r0, ?_, hkey⟩
        rw [hout]
        exact List.mem_map_of_mem toMatch hr0
    · have hS : phoneQuery history input = [] := by
        have hlen0 : ((phoneQuery history input).map toMatch).length = 0 :=
          Nat.eq_zero_of_not_pos hdat
        rw [List.length_map] at hlen0
        exact List.length_eq_zero.mp hlen0
      have hout : matchingCustomers history input = [] := by
        simp only [matchingCustomers, if_pos hlen, if_neg hdat]
      refine ⟨?_, ?_, ?_, ?_⟩
      · intro hsmall
        exact absurd hlen (not_le.mpr hsmall)
      · rw [hout]; exact List.nodup_nil
      · intro cm hcm
        rw [hout] at hcm
        exact absurd hcm (List.not_mem_nil _)
      · intro r hr hc _
        have hrS : r ∈ phoneQuery history input :=
          (mem_phoneQuery history input r).mpr ⟨hr, hc⟩
        rw [hS] at hrS
        exact absurd hrS (List.not_mem_nil _)
  · have hout : matchingCustomers history input = [] := by
      simp only [matchingCustomers, if_neg hlen]
    refine ⟨fun _ => hout, ?_, ?_, ?_⟩
    · rw [hout]; exact List.nodup_nil
    · intro cm hcm
      rw [hout] at hcm
      exact absurd hcm (List.not_mem_nil _)
    · intro r _ _ hlen2
      exact absurd hlen2 hlen

/-- Concrete resolver history: two visits sharing one phone, the later
one under a newer name. -/
def resolverRows : List HistoryRow :=
  [⟨"New Name", "5550001", 10⟩, ⟨"Old Name", "5550001", 5⟩]

/-- Witness for C6: an input of length 2 yields no suggestions, and at
length 3 the suggestion phones are duplicate-free. -/
theorem customer_resolver_ok_witness :
    matchingCustomers resolverRows "55" = [] ∧
    ((matchingCustomers resolverRows "555").map
        (fun cm => cm.customer_phone)).Nodup :=
  ⟨(customer_resolver_ok resolverRows "55").1 (by decide),
   (customer_resolver_ok resolverRows "555").2.1⟩

end PlushPoint
